import Mathlib

/-!
Shallow embedding of the HRMS-lite backend core (employee directory and
attendance ledger services) and proofs of the spec claims about it.

The relational store is a pair of lists (`employees`, `attendance`);
SQLAlchemy queries become list filters, the store-level uniqueness
constraints become explicit checks in the commit functions, and
`HTTPException` becomes an `HTTPError` value carried in `Except`.
Calendar dates are abstract day codes (`Nat`); `date.today()` becomes an
explicit `today` argument.  Timestamps and generated UUIDs are irrelevant
to every claim: timestamps are omitted and fresh ids are passed in as
arguments.  Percentages are modelled in `ℚ`.
-/

/-- Row of the `employees` table (src/app/models/employee.py); `id` is the
system-generated primary key, `employee_id` the external code. -/
structure Employee where
  id : String
  employee_id : String
  full_name : String
  email : String
  department : String
deriving DecidableEq

/-- Row of the `attendance` table (src/app/models/attendance.py). -/
structure Attendance where
  id : String
  employee_id : String
  date : Nat
  status : String
deriving DecidableEq

/-- The relational store: both tables. -/
structure DB where
  employees : List Employee
  attendance : List Attendance
deriving DecidableEq

/-- Model of fastapi.HTTPException: a status code and a detail message. -/
structure HTTPError where
  status_code : Nat
  detail : String
deriving DecidableEq

/-- status.HTTP_404_NOT_FOUND -/
def HTTP_404_NOT_FOUND : Nat := 404

/-- status.HTTP_409_CONFLICT -/
def HTTP_409_CONFLICT : Nat := 409

/-- AttendanceStatus.PRESENT.value -/
def PRESENT : String := "present"

/-- AttendanceStatus.ABSENT.value -/
def ABSENT : String := "absent"

/-- Python str.upper, modelled character-wise (ASCII case mapping). -/
def strUpper (s : String) : String := ⟨s.data.map Char.toUpper⟩

/-- Python str.lower, modelled character-wise (ASCII case mapping). -/
def strLower (s : String) : String := ⟨s.data.map Char.toLower⟩

/-- Python float round(x, 2): rounding to two decimal places, shared by the
model of the code and the statements of the spec formulas. -/
def round2 (q : ℚ) : ℚ := ((⌊q * 100 + 1 / 2⌋ : ℤ) : ℚ) / 100

/-- Match on the composite ledger key: `Attendance.employee_id == emp`
and `Attendance.date == d`. -/
def keyMatch (r : Attendance) (emp : String) (d : Nat) : Bool :=
  r.employee_id == emp && r.date == d

/-- EmployeeService.get_employee_by_id: first employee whose primary key
equals the given uuid (also the inline existence query of the attendance
service). -/
def get_employee_by_id (db : DB) (employee_uuid : String) : Option Employee :=
  db.employees.find? (fun e => e.id == employee_uuid)

/-- EmployeeService.get_employee_by_employee_id: lookup by external code,
upper-casing the argument before comparing. -/
def get_employee_by_employee_id (db : DB) (employee_id : String) : Option Employee :=
  db.employees.find? (fun e => e.employee_id == strUpper employee_id)

/-- EmployeeService.get_employee_by_email: lookup by email, lower-casing
the argument before comparing. -/
def get_employee_by_email (db : DB) (email : String) : Option Employee :=
  db.employees.find? (fun e => e.email == strLower email)

/-- AttendanceService._format_record: the record joined with the owning
employee name and external code (None when the employee lookup fails). -/
structure FormattedRecord where
  id : String
  employee_id : String
  employee_name : Option String
  employee_code : Option String
  date : Nat
  status : String
deriving DecidableEq

/-- AttendanceService._format_record. -/
def formatRecord (db : DB) (record : Attendance) : FormattedRecord :=
  let emp := get_employee_by_id db record.employee_id
  { id := record.id
    employee_id := record.employee_id
    employee_name := emp.map (fun e => e.full_name)
    employee_code := emp.map (fun e => e.employee_id)
    date := record.date
    status := record.status }

/-- The store-level composite UniqueConstraint("employee_id", "date") of
Attendance.__table_args__: true when inserting `rec` would violate it. -/
def attendanceKeyConflict (db : DB) (rec : Attendance) : Bool :=
  db.attendance.any (fun r => keyMatch r rec.employee_id rec.date)

/-- Commit of a new attendance row: the store enforces the composite
unique key and raises IntegrityError (the `Except.error ()`) on violation,
leaving the table unchanged. -/
def commitInsertAttendance (db : DB) (rec : Attendance) : Except Unit DB :=
  if attendanceKeyConflict db rec then Except.error ()
  else Except.ok { db with attendance := db.attendance ++ [rec] }

/-- Insert arm of AttendanceService.mark_attendance: add the row and
commit; on IntegrityError roll back (returning the pre-commit store) and
convert to HTTP 409.  The store passed here is the store as of commit
time, which under a concurrent-creation race may already hold the key. -/
def markInsertPhase (db : DB) (rec : Attendance) : DB × Except HTTPError FormattedRecord :=
  match commitInsertAttendance db rec with
  | Except.error () =>
      (db, Except.error ⟨HTTP_409_CONFLICT, "Attendance for this date already exists"⟩)
  | Except.ok db2 => (db2, Except.ok (formatRecord db2 rec))

/-- Update of the first row matching the ledger key, mirroring
`query(...).first()` followed by `existing.status = status_value`. -/
def updateFirstStatus : List Attendance → String → Nat → String → List Attendance
  | [], _, _, _ => []
  | r :: rest, emp, d, st =>
    if keyMatch r emp d then { r with status := st } :: rest
    else r :: updateFirstStatus rest emp d st

/-- AttendanceService.mark_attendance: verify the employee exists (404),
then upsert on the (employee, date) key; returns the resulting store and
the formatted record or the HTTP error. -/
def mark_attendance (db : DB) (newId employee_id : String) (attendance_date : Nat)
    (status_value : String) : DB × Except HTTPError FormattedRecord :=
  match get_employee_by_id db employee_id with
  | none =>
      (db, Except.error ⟨HTTP_404_NOT_FOUND,
        "Employee with ID " ++ employee_id ++ " not found"⟩)
  | some _ =>
    match db.attendance.find? (fun r => keyMatch r employee_id attendance_date) with
    | some existing =>
        let updated : Attendance := { existing with status := status_value }
        let db2 : DB :=
          { db with attendance := updateFirstStatus db.attendance employee_id attendance_date status_value }
        (db2, Except.ok (formatRecord db2 updated))
    | none => markInsertPhase db ⟨newId, employee_id, attendance_date, status_value⟩

/-- Optional inclusive date bounds of the listing queries. -/
def dateWithin (start_date end_date : Option Nat) (d : Nat) : Bool :=
  (match start_date with | none => true | some s => decide (s ≤ d)) &&
  (match end_date with | none => true | some e => decide (d ≤ e))

/-- Insertion into a list kept in descending date order. -/
def insertByDateDesc (r : Attendance) : List Attendance → List Attendance
  | [] => [r]
  | x :: xs => if decide (x.date ≤ r.date) then r :: x :: xs else x :: insertByDateDesc r xs

/-- order_by(Attendance.date.desc()). -/
def sortByDateDesc : List Attendance → List Attendance
  | [] => []
  | r :: rest => insertByDateDesc r (sortByDateDesc rest)

/-- AttendanceService.get_attendance_by_employee: 404 when the employee id
does not exist (checked before the ledger query), else the employee's
records within the optional bounds, newest first, formatted. -/
def get_attendance_by_employee (db : DB) (employee_uuid : String)
    (start_date end_date : Option Nat) : Except HTTPError (List FormattedRecord) :=
  match get_employee_by_id db employee_uuid with
  | none =>
      Except.error ⟨HTTP_404_NOT_FOUND,
        "Employee with ID " ++ employee_uuid ++ " not found"⟩
  | some _ =>
    let records := db.attendance.filter
      (fun r => r.employee_id == employee_uuid && dateWithin start_date end_date r.date)
    Except.ok ((sortByDateDesc records).map (formatRecord db))

/-- Result shape of AttendanceService.get_attendance_stats. -/
structure AttendanceStatsOut where
  employee_id : String
  employee_name : String
  total_days : Nat
  present_days : Nat
  absent_days : Nat
  attendance_percentage : ℚ
deriving DecidableEq

/-- AttendanceService.get_attendance_stats: 404 when the employee id does
not exist, else row counts (all / present / absent) for that employee and
the rounded percentage, 0.0 when there are no rows. -/
def get_attendance_stats (db : DB) (employee_uuid : String) :
    Except HTTPError AttendanceStatsOut :=
  match get_employee_by_id db employee_uuid with
  | none =>
      Except.error ⟨HTTP_404_NOT_FOUND,
        "Employee with ID " ++ employee_uuid ++ " not found"⟩
  | some employee =>
    let total_records := (db.attendance.filter (fun r => r.employee_id == employee_uuid)).length
    let present_count := (db.attendance.filter
      (fun r => r.employee_id == employee_uuid && r.status == PRESENT)).length
    let absent_count := (db.attendance.filter
      (fun r => r.employee_id == employee_uuid && r.status == ABSENT)).length
    let attendance_percentage : ℚ :=
      if 0 < total_records then (present_count : ℚ) / (total_records : ℚ) * 100 else 0
    Except.ok
      { employee_id := employee_uuid
        employee_name := employee.full_name
        total_days := total_records
        present_days := present_count
        absent_days := absent_count
        attendance_percentage := round2 attendance_percentage }

/-- Result shape of AttendanceService.get_today_attendance_count;
`unmarked_today` is an integer because the source computes it by plain
subtraction. -/
structure TodaySummary where
  total_employees : Nat
  marked_today : Nat
  present_today : Nat
  absent_today : Nat
  unmarked_today : Int
  attendance_rate : ℚ
deriving DecidableEq

/-- AttendanceService.get_today_attendance_count, with `date.today()`
passed in as the `today` argument. -/
def get_today_attendance_count (db : DB) (today : Nat) : TodaySummary :=
  let total_employees := db.employees.length
  let present_today := (db.attendance.filter
    (fun r => r.date == today && r.status == PRESENT)).length
  let absent_today := (db.attendance.filter
    (fun r => r.date == today && r.status == ABSENT)).length
  let marked_today := present_today + absent_today
  { total_employees := total_employees
    marked_today := marked_today
    present_today := present_today
    absent_today := absent_today
    unmarked_today := (total_employees : Int) - (marked_today : Int)
    attendance_rate :=
      round2 (if 0 < total_employees then (present_today : ℚ) / (total_employees : ℚ) * 100 else 0) }

/-- The store-level unique constraints of the employees table
(employee_id unique, email unique): true when inserting `emp` would
violate one of them. -/
def employeeStoreConflict (db : DB) (emp : Employee) : Bool :=
  db.employees.any (fun e => e.employee_id == emp.employee_id || e.email == emp.email)

/-- Commit of a new employee row: the store enforces both unique columns
and raises IntegrityError on violation, leaving the table unchanged. -/
def commitInsertEmployee (db : DB) (emp : Employee) : Except Unit DB :=
  if employeeStoreConflict db emp then Except.error ()
  else Except.ok { db with employees := db.employees ++ [emp] }

/-- Insert arm of EmployeeService.create_employee: add the row and commit;
on IntegrityError roll back and convert to HTTP 409.  The store passed
here is the store as of commit time, which under a race may already hold
a conflicting row the pre-queries did not see. -/
def createCommitPhase (db : DB) (emp : Employee) : DB × Except HTTPError Employee :=
  match commitInsertEmployee db emp with
  | Except.error () =>
      (db, Except.error ⟨HTTP_409_CONFLICT, "Employee with this ID or email already exists"⟩)
  | Except.ok db2 => (db2, Except.ok emp)

/-- EmployeeService.create_employee: pre-query on the normalized code then
on the normalized email (each a 409 on a hit), then insert the row with
code upper-cased and email lower-cased. -/
def create_employee (db : DB) (newId employee_id full_name email department : String) :
    DB × Except HTTPError Employee :=
  if (get_employee_by_employee_id db employee_id).isSome then
    (db, Except.error ⟨HTTP_409_CONFLICT,
      "Employee with ID " ++ employee_id ++ " already exists"⟩)
  else if (get_employee_by_email db email).isSome then
    (db, Except.error ⟨HTTP_409_CONFLICT,
      "Employee with email " ++ email ++ " already exists"⟩)
  else
    createCommitPhase db ⟨newId, strUpper employee_id, full_name, strLower email, department⟩

/-- EmployeeService.delete_employee: 404 when the uuid does not exist,
else delete the employee row; the store cascade (ondelete="CASCADE" with
the delete-orphan relationship) removes every attendance row owned by it. -/
def delete_employee (db : DB) (employee_uuid : String) : DB × Except HTTPError Bool :=
  match get_employee_by_id db employee_uuid with
  | none =>
      (db, Except.error ⟨HTTP_404_NOT_FOUND,
        "Employee with ID " ++ employee_uuid ++ " not found"⟩)
  | some employee =>
    let db2 : DB :=
      { employees := db.employees.filter (fun e => !(e.id == employee.id))
        attendance := db.attendance.filter (fun r => !(r.employee_id == employee.id)) }
    (db2, Except.ok true)

/-- The ledger invariant: at most one attendance row per
(employee_id, date) composite key. -/
def uniquePerKeyB : List Attendance → Bool
  | [] => true
  | r :: rest =>
      !(rest.any (fun s => keyMatch s r.employee_id r.date)) && uniquePerKeyB rest

/-- Rows of the ledger holding the given composite key. -/
def recordsFor (db : DB) (emp : String) (d : Nat) : List Attendance :=
  db.attendance.filter (fun r => keyMatch r emp d)

/-- One mark-attendance request: the generated row id and the three call
arguments. -/
structure MarkOp where
  newId : String
  employee_id : String
  date : Nat
  status : String

/-- Sequential execution of a list of mark-attendance calls, each against
the store the previous one left. -/
def applyMarks (db : DB) : List MarkOp → DB
  | [] => db
  | op :: rest => applyMarks (mark_attendance db op.newId op.employee_id op.date op.status).1 rest

/-- Number of distinct dates with a marked record for the employee. -/
def distinctMarkedDates (db : DB) (emp : String) : Nat :=
  (((db.attendance.filter (fun r => r.employee_id == emp)).map (fun r => r.date)).dedup).length

/-- Concrete employee used to instantiate the theorems. -/
def empA : Employee := ⟨"u1", "E001", "Alice", "a@x.com", "Eng"⟩

/-- Second concrete employee. -/
def empB : Employee := ⟨"u2", "E002", "Bob", "b@x.com", "Ops"⟩

/-- Concrete store with two employees and one attendance row. -/
def dbW : DB := ⟨[empA, empB], [⟨"a1", "u1", 10, "present"⟩]⟩

theorem updateFirstStatus_length (rs : List Attendance) (emp : String) (d : Nat) (st : String) :
    (updateFirstStatus rs emp d st).length = rs.length := by
  induction rs with
  | nil => rfl
  | cons r rest ih =>
    simp only [updateFirstStatus]
    split <;> simp [ih]

theorem updateFirstStatus_any (rs : List Attendance) (emp : String) (d : Nat) (st : String)
    (e2 : String) (d2 : Nat) :
    (updateFirstStatus rs emp d st).any (fun s => keyMatch s e2 d2)
      = rs.any (fun s => keyMatch s e2 d2) := by
  induction rs with
  | nil => rfl
  | cons r rest ih =>
    simp only [updateFirstStatus]
    split
    · rfl
    · simp only [List.any_cons, ih]

theorem uniquePerKeyB_updateFirstStatus (rs : List Attendance) (emp : String) (d : Nat)
    (st : String) :
    uniquePerKeyB (updateFirstStatus rs emp d st) = uniquePerKeyB rs := by
  induction rs with
  | nil => rfl
  | cons r rest ih =>
    simp only [updateFirstStatus]
    split
    · rfl
    · simp only [uniquePerKeyB, updateFirstStatus_any, ih]

theorem uniquePerKeyB_append_single (rs : List Attendance) (rec : Attendance)
    (h : uniquePerKeyB rs = true)
    (hnew : rs.any (fun s => keyMatch s rec.employee_id rec.date) = false) :
    uniquePerKeyB (rs ++ [rec]) = true := by
  induction rs with
  | nil => simp [uniquePerKeyB]
  | cons r rest ih =>
    obtain ⟨h1, h2⟩ : rest.any (fun s => keyMatch s r.employee_id r.date) = false
        ∧ uniquePerKeyB rest = true := by
      simpa [uniquePerKeyB, Bool.and_eq_true, Bool.not_eq_true'] using h
    have hn1 : keyMatch r rec.employee_id rec.date = false := by
      simpa using List.any_eq_false.mp hnew r (List.mem_cons_self r rest)
    have hn2 : rest.any (fun s => keyMatch s rec.employee_id rec.date) = false := by
      rw [List.any_eq_false]
      intro x hx
      simpa using List.any_eq_false.mp hnew x (List.mem_cons_of_mem r hx)
    have hsym : keyMatch rec r.employee_id r.date = false := by
      simp only [keyMatch, Bool.and_eq_false_iff, beq_eq_false_iff_ne, ne_eq] at hn1 ⊢
      rcases hn1 with hc | hc
      · exact Or.inl fun hEq => hc hEq.symm
      · exact Or.inr fun hEq => hc hEq.symm
    show ((!(rest ++ [rec]).any fun s => keyMatch s r.employee_id r.date)
        && uniquePerKeyB (rest ++ [rec])) = true
    rw [Bool.and_eq_true, Bool.not_eq_true', List.any_append]
    refine ⟨?_, ih h2 hn2⟩
    rw [h1]
    simp [hsym]

theorem mark_attendance_employees (db : DB) (i e : String) (d : Nat) (s : String) :
    (mark_attendance db i e d s).1.employees = db.employees := by
  cases hemp : get_employee_by_id db e with
  | none => simp [mark_attendance, hemp]
  | some emp =>
    cases hf : db.attendance.find? (fun r => keyMatch r e d) with
    | some ex => simp [mark_attendance, hemp, hf]
    | none =>
      cases hc : attendanceKeyConflict db ⟨i, e, d, s⟩ <;>
        simp [mark_attendance, hemp, hf, markInsertPhase, commitInsertAttendance, hc]

theorem get_employee_by_id_mark (db : DB) (i e : String) (d : Nat) (s : String) (u : String) :
    get_employee_by_id (mark_attendance db i e d s).1 u = get_employee_by_id db u := by
  unfold get_employee_by_id
  rw [mark_attendance_employees]

theorem mark_preserves_unique (db : DB) (i e : String) (d : Nat) (s : String)
    (h : uniquePerKeyB db.attendance = true) :
    uniquePerKeyB (mark_attendance db i e d s).1.attendance = true := by
  cases hemp : get_employee_by_id db e with
  | none => simpa [mark_attendance, hemp] using h
  | some emp =>
    cases hf : db.attendance.find? (fun r => keyMatch r e d) with
    | some ex =>
      simp only [mark_attendance, hemp, hf]
      rw [uniquePerKeyB_updateFirstStatus]
      exact h
    | none =>
      have hany : db.attendance.any (fun r => keyMatch r e d) = false := by
        rw [List.any_eq_false]
        intro r hr
        simpa using List.find?_eq_none.mp hf r hr
      simp only [mark_attendance, hemp, hf, markInsertPhase, commitInsertAttendance]
      rw [show attendanceKeyConflict db ⟨i, e, d, s⟩ = false from hany]
      simp only [Bool.false_eq_true, if_false]
      exact uniquePerKeyB_append_single _ _ h hany

theorem applyMarks_preserves_unique (db : DB) (ops : List MarkOp)
    (h : uniquePerKeyB db.attendance = true) :
    uniquePerKeyB (applyMarks db ops).attendance = true := by
  induction ops generalizing db with
  | nil => exact h
  | cons op rest ih => exact ih _ (mark_preserves_unique _ _ _ _ _ h)

theorem mark_key_present (db : DB) (i e : String) (d : Nat) (s : String)
    (h : (get_employee_by_id db e).isSome = true) :
    (mark_attendance db i e d s).1.attendance.any (fun r => keyMatch r e d) = true := by
  obtain ⟨emp, hemp⟩ := Option.isSome_iff_exists.mp h
  cases hf : db.attendance.find? (fun r => keyMatch r e d) with
  | some ex =>
    have hmem := List.mem_of_find?_eq_some hf
    have hkey := List.find?_some hf
    simp only [mark_attendance, hemp, hf]
    rw [updateFirstStatus_any]
    exact List.any_eq_true.mpr ⟨ex, hmem, hkey⟩
  | none =>
    have hany : db.attendance.any (fun r => keyMatch r e d) = false := by
      rw [List.any_eq_false]
      intro r hr
      simpa using List.find?_eq_none.mp hf r hr
    simp only [mark_attendance, hemp, hf, markInsertPhase, commitInsertAttendance]
    rw [show attendanceKeyConflict db ⟨i, e, d, s⟩ = false from hany]
    simp only [Bool.false_eq_true, if_false]
    simp [List.any_append, keyMatch]

theorem filter_updateFirstStatus (rs : List Attendance) (emp : String) (d : Nat) (st : String)
    (hu : uniquePerKeyB rs = true) (hex : rs.any (fun r => keyMatch r emp d) = true) :
    ∃ r : Attendance, (updateFirstStatus rs emp d st).filter (fun x => keyMatch x emp d) = [r]
      ∧ r.status = st := by
  induction rs with
  | nil => simp at hex
  | cons r rest ih =>
    obtain ⟨h1, h2⟩ : rest.any (fun s => keyMatch s r.employee_id r.date) = false
        ∧ uniquePerKeyB rest = true := by
      simpa [uniquePerKeyB, Bool.and_eq_true, Bool.not_eq_true'] using hu
    cases hk : keyMatch r emp d with
    | true =>
      refine ⟨{ r with status := st }, ?_, rfl⟩
      have hkey : r.employee_id = emp ∧ r.date = d := by
        simpa [keyMatch, Bool.and_eq_true] using hk
      have hrest : rest.filter (fun x => keyMatch x emp d) = [] := by
        rw [hkey.1, hkey.2] at h1
        rw [List.filter_eq_nil_iff]
        intro x hx
        simpa using List.any_eq_false.mp h1 x hx
      have hupd : updateFirstStatus (r :: rest) emp d st = { r with status := st } :: rest := by
        simp [updateFirstStatus, hk]
      have hk2 : keyMatch { r with status := st } emp d = true := hk
      rw [hupd]
      simp [List.filter_cons, hk2, hrest]
    | false =>
      have hex2 : rest.any (fun x => keyMatch x emp d) = true := by
        simpa [List.any_cons, hk] using hex
      obtain ⟨x, hxf, hxs⟩ := ih h2 hex2
      refine ⟨x, ?_, hxs⟩
      have hupd : updateFirstStatus (r :: rest) emp d st = r :: updateFirstStatus rest emp d st := by
        simp [updateFirstStatus, hk]
      rw [hupd]
      simp [List.filter_cons, hk, hxf]

theorem count_present_absent_split (rs : List Attendance) (emp : String)
    (hs : ∀ r ∈ rs, r.employee_id = emp → r.status = PRESENT ∨ r.status = ABSENT) :
    (rs.filter (fun r => r.employee_id == emp && r.status == PRESENT)).length
      + (rs.filter (fun r => r.employee_id == emp && r.status == ABSENT)).length
      = (rs.filter (fun r => r.employee_id == emp)).length := by
  have hpa : (PRESENT == ABSENT) = false := by decide
  have hap : (ABSENT == PRESENT) = false := by decide
  induction rs with
  | nil => rfl
  | cons r rest ih =>
    have hs2 : ∀ x ∈ rest, x.employee_id = emp → x.status = PRESENT ∨ x.status = ABSENT :=
      fun x hx => hs x (List.mem_cons_of_mem r hx)
    have ihr := ih hs2
    by_cases he : r.employee_id = emp
    · rcases hs r (List.mem_cons_self r rest) he with hp | ha
      · simp [List.filter_cons, he, hp, hpa, List.length_cons]
        omega
      · simp [List.filter_cons, he, ha, hap, List.length_cons]
        omega
    · have c3 : (r.employee_id == emp) = false := beq_eq_false_iff_ne.mpr he
      simp [List.filter_cons, c3]
      omega

theorem nodup_filter_dates (rs : List Attendance) (emp : String)
    (hu : uniquePerKeyB rs = true) :
    ((rs.filter (fun r => r.employee_id == emp)).map (fun r => r.date)).Nodup := by
  induction rs with
  | nil => simp
  | cons r rest ih =>
    obtain ⟨h1, h2⟩ : rest.any (fun s => keyMatch s r.employee_id r.date) = false
        ∧ uniquePerKeyB rest = true := by
      simpa [uniquePerKeyB, Bool.and_eq_true, Bool.not_eq_true'] using hu
    by_cases he : r.employee_id = emp
    · have c3 : (r.employee_id == emp) = true := by simp [he]
      simp only [List.filter_cons, c3, if_true, List.map_cons]
      rw [List.nodup_cons]
      refine ⟨?_, ih h2⟩
      intro hmem
      obtain ⟨x, hxmem, hxdate⟩ := List.mem_map.mp hmem
      have hxr := List.mem_filter.mp hxmem
      have hkm := List.any_eq_false.mp h1 x hxr.1
      have hxe : x.employee_id = emp := by simpa using hxr.2
      simp only [keyMatch, Bool.and_eq_true, beq_iff_eq, Bool.not_eq_true] at hkm
      exact hkm ⟨hxe.trans he.symm, hxdate⟩
    · have c3 : (r.employee_id == emp) = false := beq_eq_false_iff_ne.mpr he
      simp only [List.filter_cons, c3, Bool.false_eq_true, if_false]
      exact ih h2

/-- C2: for every existing employee, the per-employee statistics operation
returns attendance_percentage equal to round(present_days / total_days * 100, 2)
when total_days > 0 and exactly 0.0 when total_days = 0; the operation is a
total function, so no division-by-zero error is ever raised. -/
theorem C2_attendance_percentage (db : DB) (e : String)
    (h : (get_employee_by_id db e).isSome = true) :
    ∃ s : AttendanceStatsOut, get_attendance_stats db e = Except.ok s
      ∧ (s.total_days = 0 → s.attendance_percentage = 0)
      ∧ (0 < s.total_days →
          s.attendance_percentage = round2 ((s.present_days : ℚ) / (s.total_days : ℚ) * 100)) := by
  obtain ⟨emp, hemp⟩ := Option.isSome_iff_exists.mp h
  refine ⟨{ employee_id := e
            employee_name := emp.full_name
            total_days := (db.attendance.filter (fun r => r.employee_id == e)).length
            present_days := (db.attendance.filter
              (fun r => r.employee_id == e && r.status == PRESENT)).length
            absent_days := (db.attendance.filter
              (fun r => r.employee_id == e && r.status == ABSENT)).length
            attendance_percentage := round2
              (if 0 < (db.attendance.filter (fun r => r.employee_id == e)).length then
                ((db.attendance.filter
                    (fun r => r.employee_id == e && r.status == PRESENT)).length : ℚ)
                  / ((db.attendance.filter (fun r => r.employee_id == e)).length : ℚ) * 100
              else 0) }, ?_, ?_, ?_⟩
  · simp only [get_attendance_stats, hemp]
  · intro h0
    have h0' : (db.attendance.filter (fun r => r.employee_id == e)).length = 0 := h0
    show round2 (if 0 < (db.attendance.filter (fun r => r.employee_id == e)).length then
        ((db.attendance.filter (fun r => r.employee_id == e && r.status == PRESENT)).length : ℚ)
          / ((db.attendance.filter (fun r => r.employee_id == e)).length : ℚ) * 100 else 0) = 0
    rw [h0']
    norm_num [round2]
  · intro hpos
    have hpos' : 0 < (db.attendance.filter (fun r => r.employee_id == e)).length := hpos
    show round2 (if 0 < (db.attendance.filter (fun r => r.employee_id == e)).length then
        ((db.attendance.filter (fun r => r.employee_id == e && r.status == PRESENT)).length : ℚ)
          / ((db.attendance.filter (fun r => r.employee_id == e)).length : ℚ) * 100 else 0)
      = round2 (((db.attendance.filter (fun r => r.employee_id == e && r.status == PRESENT)).length : ℚ)
          / ((db.attendance.filter (fun r => r.employee_id == e)).length : ℚ) * 100)
    rw [if_pos hpos']

/-- Witness for C2 on the concrete store. -/
theorem C2_attendance_percentage_witness :
    (get_employee_by_id dbW "u1").isSome = true
      ∧ ∃ s : AttendanceStatsOut, get_attendance_stats dbW "u1" = Except.ok s
        ∧ (s.total_days = 0 → s.attendance_percentage = 0)
        ∧ (0 < s.total_days →
            s.attendance_percentage = round2 ((s.present_days : ℚ) / (s.total_days : ℚ) * 100)) :=
  ⟨by decide, C2_attendance_percentage dbW "u1" (by decide)⟩

/-- C6: the today summary always satisfies
marked_today = present_today + absent_today and
unmarked_today = total_employees - marked_today as plain integer
subtraction (no clamping), and attendance_rate is
round(present_today / total_employees * 100, 2) when total_employees > 0
and 0.0 when total_employees = 0. -/
theorem C6_today_summary (db : DB) (today : Nat) :
    (get_today_attendance_count db today).marked_today
        = (get_today_attendance_count db today).present_today
          + (get_today_attendance_count db today).absent_today
      ∧ (get_today_attendance_count db today).unmarked_today
          = ((get_today_attendance_count db today).total_employees : Int)
            - ((get_today_attendance_count db today).marked_today : Int)
      ∧ ((get_today_attendance_count db today).total_employees = 0 →
          (get_today_attendance_count db today).attendance_rate = 0)
      ∧ (0 < (get_today_attendance_count db today).total_employees →
          (get_today_attendance_count db today).attendance_rate
            = round2 (((get_today_attendance_count db today).present_today : ℚ)
                / ((get_today_attendance_count db today).total_employees : ℚ) * 100)) := by
  refine ⟨rfl, rfl, ?_, ?_⟩
  · intro h0
    have h0' : db.employees.length = 0 := h0
    show round2 (if 0 < db.employees.length then
        ((db.attendance.filter (fun r => r.date == today && r.status == PRESENT)).length : ℚ)
          / (db.employees.length : ℚ) * 100 else 0) = 0
    rw [h0']
    norm_num [round2]
  · intro hpos
    have hpos' : 0 < db.employees.length := hpos
    show round2 (if 0 < db.employees.length then
        ((db.attendance.filter (fun r => r.date == today && r.status == PRESENT)).length : ℚ)
          / (db.employees.length : ℚ) * 100 else 0)
      = round2 (((db.attendance.filter (fun r => r.date == today && r.status == PRESENT)).length : ℚ)
          / (db.employees.length : ℚ) * 100)
    rw [if_pos hpos']

/-- Witness for C6 on the concrete store. -/
theorem C6_today_summary_witness :
    0 < (get_today_attendance_count dbW 10).total_employees
      ∧ (get_today_attendance_count dbW 10).attendance_rate
          = round2 (((get_today_attendance_count dbW 10).present_today : ℚ)
              / ((get_today_attendance_count dbW 10).total_employees : ℚ) * 100) :=
  ⟨by decide, (C6_today_summary dbW 10).2.2.2 (by decide)⟩

/-- C7: when the insert arm of mark-attendance hits the composite
uniqueness constraint at commit time (a concurrent-creation race), the
operation rolls back, returning the store unchanged, and signals HTTP 409
Conflict instead of an unhandled store error. -/
theorem C7_insert_race_conflict (db : DB) (rec : Attendance)
    (h : attendanceKeyConflict db rec = true) :
    markInsertPhase db rec
      = (db, Except.error ⟨HTTP_409_CONFLICT, "Attendance for this date already exists"⟩) := by
  simp [markInsertPhase, commitInsertAttendance, h]

/-- Witness for C7 on the concrete store. -/
theorem C7_insert_race_conflict_witness :
    attendanceKeyConflict dbW ⟨"a2", "u1", 10, "absent"⟩ = true
      ∧ markInsertPhase dbW ⟨"a2", "u1", 10, "absent"⟩
        = (dbW, Except.error ⟨HTTP_409_CONFLICT, "Attendance for this date already exists"⟩) :=
  ⟨by decide, C7_insert_race_conflict dbW ⟨"a2", "u1", 10, "absent"⟩ (by decide)⟩

/-- C8: for an employee id not in the store, mark-attendance, the
per-employee record listing and the per-employee statistics all signal
HTTP 404 NotFound (no empty list is returned), and mark-attendance leaves
the store unchanged. -/
theorem C8_missing_employee_not_found (db : DB) (e : String)
    (h : get_employee_by_id db e = none) (i : String) (d : Nat) (s : String)
    (sd ed : Option Nat) :
    (mark_attendance db i e d s).1 = db
      ∧ (mark_attendance db i e d s).2
          = Except.error ⟨HTTP_404_NOT_FOUND, "Employee with ID " ++ e ++ " not found"⟩
      ∧ get_attendance_by_employee db e sd ed
          = Except.error ⟨HTTP_404_NOT_FOUND, "Employee with ID " ++ e ++ " not found"⟩
      ∧ get_attendance_stats db e
          = Except.error ⟨HTTP_404_NOT_FOUND, "Employee with ID " ++ e ++ " not found"⟩ := by
  refine ⟨?_, ?_, ?_, ?_⟩ <;>
    simp [mark_attendance, get_attendance_by_employee, get_attendance_stats, h]

/-- Witness for C8 on the concrete store. -/
theorem C8_missing_employee_not_found_witness :
    get_employee_by_id dbW "zz" = none
      ∧ (mark_attendance dbW "a9" "zz" 10 "present").1 = dbW :=
  ⟨by decide, (C8_missing_employee_not_found dbW "zz" (by decide) "a9" 10 "present" none none).1⟩

theorem create_employee_ok (db db2 : DB) (newId code nm em dept : String) (emp : Employee)
    (h : create_employee db newId code nm em dept = (db2, Except.ok emp)) :
    emp = ⟨newId, strUpper code, nm, strLower em, dept⟩
      ∧ db2.employees = db.employees ++ [emp]
      ∧ db2.attendance = db.attendance := by
  unfold create_employee createCommitPhase commitInsertEmployee at h
  by_cases h1 : (get_employee_by_employee_id db code).isSome = true
  · simp [h1] at h
  · by_cases h2 : (get_employee_by_email db em).isSome = true
    · simp [h1, h2] at h
    · by_cases h3 : employeeStoreConflict db ⟨newId, strUpper code, nm, strLower em, dept⟩ = true
      · simp [h1, h2, h3] at h
      · simp only [h1, h2, h3, if_false, Bool.false_eq_true] at h
        rw [Prod.mk.injEq, Except.ok.injEq] at h
        obtain ⟨hd, he⟩ := h
        subst he
        subst hd
        exact ⟨rfl, rfl, rfl⟩

/-- C5: every successful create stores and returns the code upper-cased and
the email lower-cased, with full_name and department exactly as given. -/
theorem C5_create_employee_normalization (db db2 : DB) (newId code nm em dept : String)
    (emp : Employee) (h : create_employee db newId code nm em dept = (db2, Except.ok emp)) :
    emp.employee_id = strUpper code ∧ emp.email = strLower em
      ∧ emp.full_name = nm ∧ emp.department = dept ∧ emp ∈ db2.employees := by
  obtain ⟨he, hd, _⟩ := create_employee_ok db db2 newId code nm em dept emp h
  subst he
  refine ⟨rfl, rfl, rfl, rfl, ?_⟩
  simp [hd]

/-- Witness for C5 on the concrete store. -/
theorem C5_create_employee_normalization_witness :
    create_employee dbW "u3" "e003" "Cara" "C@X.com" "HR"
        = (⟨dbW.employees ++ [⟨"u3", "E003", "Cara", "c@x.com", "HR"⟩], dbW.attendance⟩,
           Except.ok ⟨"u3", "E003", "Cara", "c@x.com", "HR"⟩)
      ∧ (⟨"u3", "E003", "Cara", "c@x.com", "HR"⟩ : Employee).employee_id
          = strUpper "e003" := by
  have hcreate : create_employee dbW "u3" "e003" "Cara" "C@X.com" "HR"
      = (⟨dbW.employees ++ [⟨"u3", "E003", "Cara", "c@x.com", "HR"⟩], dbW.attendance⟩,
         Except.ok ⟨"u3", "E003", "Cara", "c@x.com", "HR"⟩) := by rfl
  exact ⟨hcreate,
    (C5_create_employee_normalization dbW _ "u3" "e003" "Cara" "C@X.com" "HR" _ hcreate).1⟩

/-- C4: create-employee fails with HTTP 409 Conflict (store unchanged)
whenever an employee with the same normalized code or normalized email
already exists, so two codes differing only in case conflict; the
store-level uniqueness fallback reports the same 409 Conflict outcome. -/
theorem C4_create_employee_conflict :
    (∀ (db : DB) (newId code nm em dept : String),
        ((∃ e0 ∈ db.employees, e0.employee_id = strUpper code)
          ∨ (∃ e0 ∈ db.employees, e0.email = strLower em)) →
        (create_employee db newId code nm em dept).1 = db
          ∧ ∃ err : HTTPError, (create_employee db newId code nm em dept).2 = Except.error err
              ∧ err.status_code = HTTP_409_CONFLICT)
    ∧ (∀ (db db1 : DB) (newId1 newId2 code1 code2 nm1 nm2 em1 em2 d1 d2 : String)
          (emp : Employee),
        create_employee db newId1 code1 nm1 em1 d1 = (db1, Except.ok emp) →
        strUpper code2 = strUpper code1 →
        (create_employee db1 newId2 code2 nm2 em2 d2).1 = db1
          ∧ ∃ err : HTTPError, (create_employee db1 newId2 code2 nm2 em2 d2).2 = Except.error err
              ∧ err.status_code = HTTP_409_CONFLICT)
    ∧ (∀ (db : DB) (emp : Employee), employeeStoreConflict db emp = true →
        createCommitPhase db emp
          = (db, Except.error ⟨HTTP_409_CONFLICT,
              "Employee with this ID or email already exists"⟩)) := by
  have hA : ∀ (db : DB) (newId code nm em dept : String),
      ((∃ e0 ∈ db.employees, e0.employee_id = strUpper code)
        ∨ (∃ e0 ∈ db.employees, e0.email = strLower em)) →
      (create_employee db newId code nm em dept).1 = db
        ∧ ∃ err : HTTPError, (create_employee db newId code nm em dept).2 = Except.error err
            ∧ err.status_code = HTTP_409_CONFLICT := by
    intro db newId code nm em dept hconf
    by_cases h1 : (get_employee_by_employee_id db code).isSome = true
    · refine ⟨by simp [create_employee, h1],
        ⟨HTTP_409_CONFLICT, "Employee with ID " ++ code ++ " already exists"⟩,
        by simp [create_employee, h1], rfl⟩
    · rcases hconf with ⟨e0, he0, hcode⟩ | ⟨e0, he0, hmail⟩
      · exfalso
        apply h1
        unfold get_employee_by_employee_id
        rw [List.find?_isSome]
        exact ⟨e0, he0, by simp [hcode]⟩
      · by_cases h2 : (get_employee_by_email db em).isSome = true
        · refine ⟨by simp [create_employee, h1, h2],
            ⟨HTTP_409_CONFLICT, "Employee with email " ++ em ++ " already exists"⟩,
            by simp [create_employee, h1, h2], rfl⟩
        · exfalso
          apply h2
          unfold get_employee_by_email
          rw [List.find?_isSome]
          exact ⟨e0, he0, by simp [hmail]⟩
  refine ⟨hA, ?_, ?_⟩
  · intro db db1 newId1 newId2 code1 code2 nm1 nm2 em1 em2 d1 d2 emp hok hcase
    obtain ⟨he, hd, _⟩ := create_employee_ok db db1 newId1 code1 nm1 em1 d1 emp hok
    apply hA db1 newId2 code2 nm2 em2 d2
    left
    refine ⟨emp, ?_, ?_⟩
    · rw [hd]
      simp
    · subst he
      exact hcase.symm
  · intro db emp h3
    simp [createCommitPhase, commitInsertEmployee, h3]

/-- Witness for C4 on the concrete store. -/
theorem C4_create_employee_conflict_witness :
    ((∃ e0 ∈ dbW.employees, e0.employee_id = strUpper "e001")
      ∧ (create_employee dbW "u9" "e001" "Xan" "x@x.com" "QA").1 = dbW)
      ∧ employeeStoreConflict dbW empA = true
      ∧ createCommitPhase dbW empA
          = (dbW, Except.error ⟨HTTP_409_CONFLICT,
              "Employee with this ID or email already exists"⟩) := by
  refine ⟨⟨⟨empA, by decide, by decide⟩, ?_⟩, by decide, ?_⟩
  · exact (C4_create_employee_conflict.1 dbW "u9" "e001" "Xan" "x@x.com" "QA"
      (Or.inl ⟨empA, by decide, by decide⟩)).1
  · exact C4_create_employee_conflict.2.2 dbW empA (by decide)

theorem get_attendance_stats_ok (db : DB) (e : String) (emp : Employee)
    (hemp : get_employee_by_id db e = some emp) :
    get_attendance_stats db e = Except.ok
      { employee_id := e
        employee_name := emp.full_name
        total_days := (db.attendance.filter (fun r => r.employee_id == e)).length
        present_days := (db.attendance.filter
          (fun r => r.employee_id == e && r.status == PRESENT)).length
        absent_days := (db.attendance.filter
          (fun r => r.employee_id == e && r.status == ABSENT)).length
        attendance_percentage := round2
          (if 0 < (db.attendance.filter (fun r => r.employee_id == e)).length then
            ((db.attendance.filter (fun r => r.employee_id == e && r.status == PRESENT)).length : ℚ)
              / ((db.attendance.filter (fun r => r.employee_id == e)).length : ℚ) * 100
          else 0) } := by
  simp only [get_attendance_stats, hemp]

/-- C3: for every existing employee whose stored statuses all lie in
{present, absent} and under the one-record-per-key invariant, the stats
satisfy present_days + absent_days = total_days and total_days equals the
number of distinct dates marked for that employee. -/
theorem C3_stats_sum_and_distinct_dates (db : DB) (e : String)
    (h : (get_employee_by_id db e).isSome = true)
    (hu : uniquePerKeyB db.attendance = true)
    (hs : ∀ r ∈ db.attendance, r.status = PRESENT ∨ r.status = ABSENT) :
    ∃ s : AttendanceStatsOut, get_attendance_stats db e = Except.ok s
      ∧ s.present_days + s.absent_days = s.total_days
      ∧ s.total_days = distinctMarkedDates db e := by
  obtain ⟨emp, hemp⟩ := Option.isSome_iff_exists.mp h
  refine ⟨_, get_attendance_stats_ok db e emp hemp, ?_, ?_⟩
  · exact count_present_absent_split db.attendance e (fun r hr _ => hs r hr)
  · show (db.attendance.filter (fun r => r.employee_id == e)).length = distinctMarkedDates db e
    unfold distinctMarkedDates
    rw [List.dedup_eq_self.mpr (nodup_filter_dates db.attendance e hu), List.length_map]

/-- Witness for C3 on the concrete store. -/
theorem C3_stats_sum_and_distinct_dates_witness :
    ((get_employee_by_id dbW "u1").isSome = true ∧ uniquePerKeyB dbW.attendance = true
      ∧ (∀ r ∈ dbW.attendance, r.status = PRESENT ∨ r.status = ABSENT))
      ∧ ∃ s : AttendanceStatsOut, get_attendance_stats dbW "u1" = Except.ok s
        ∧ s.present_days + s.absent_days = s.total_days
        ∧ s.total_days = distinctMarkedDates dbW "u1" :=
  ⟨⟨by decide, by decide, by decide⟩,
    C3_stats_sum_and_distinct_dates dbW "u1" (by decide) (by decide) (by decide)⟩

/-- C9: deleting an absent employee id signals HTTP 404 NotFound with the
store unchanged; deleting an existing one removes that employee and (by
cascade) all its attendance records, a subsequent lookup of the id finds
nothing, and every other employee and every attendance record of other
employees is retained. -/
theorem C9_delete_employee_cascade :
    (∀ (db : DB) (u : String), get_employee_by_id db u = none →
        delete_employee db u
          = (db, Except.error ⟨HTTP_404_NOT_FOUND, "Employee with ID " ++ u ++ " not found"⟩))
    ∧ (∀ (db : DB) (u : String) (emp : Employee), get_employee_by_id db u = some emp →
        (delete_employee db u).2 = Except.ok true
          ∧ (∀ r ∈ (delete_employee db u).1.attendance, r.employee_id ≠ u)
          ∧ get_employee_by_id (delete_employee db u).1 u = none
          ∧ (∀ e2 ∈ db.employees, e2.id ≠ u → e2 ∈ (delete_employee db u).1.employees)
          ∧ (∀ r ∈ db.attendance, r.employee_id ≠ u → r ∈ (delete_employee db u).1.attendance)) := by
  constructor
  · intro db u h
    simp [delete_employee, h]
  · intro db u emp h
    have hid : emp.id = u := by
      have := List.find?_some (show List.find? (fun x => x.id == u) db.employees = some emp from h)
      simpa using this
    have hdel : delete_employee db u
        = (⟨db.employees.filter (fun x => !(x.id == emp.id)),
            db.attendance.filter (fun r => !(r.employee_id == emp.id))⟩, Except.ok true) := by
      simp only [delete_employee, h]
    rw [hdel]
    refine ⟨rfl, ?_, ?_, ?_, ?_⟩
    · intro r hr
      have := (List.mem_filter.mp hr).2
      simp only [Bool.not_eq_eq_eq_not, Bool.not_true, beq_eq_false_iff_ne, ne_eq] at this
      rw [← hid]
      exact this
    · unfold get_employee_by_id
      rw [List.find?_eq_none]
      intro x hx
      have := (List.mem_filter.mp hx).2
      simp only [Bool.not_eq_eq_eq_not, Bool.not_true, beq_eq_false_iff_ne, ne_eq] at this
      rw [← hid]
      simpa using this
    · intro e2 he2 hne
      refine List.mem_filter.mpr ⟨he2, ?_⟩
      simp only [Bool.not_eq_eq_eq_not, Bool.not_true, beq_eq_false_iff_ne, ne_eq]
      rw [hid]
      exact hne
    · intro r hr hne
      refine List.mem_filter.mpr ⟨hr, ?_⟩
      simp only [Bool.not_eq_eq_eq_not, Bool.not_true, beq_eq_false_iff_ne, ne_eq]
      rw [hid]
      exact hne

/-- Witness for C9 on the concrete store. -/
theorem C9_delete_employee_cascade_witness :
    get_employee_by_id dbW "u1" = some empA
      ∧ (delete_employee dbW "u1").2 = Except.ok true
      ∧ get_employee_by_id (delete_employee dbW "u1").1 "u1" = none :=
  ⟨by decide, (C9_delete_employee_cascade.2 dbW "u1" empA (by decide)).1,
    (C9_delete_employee_cascade.2 dbW "u1" empA (by decide)).2.2.1⟩

/-- C10: the core mark-attendance operation does not validate the status
value: for any string, marking an existing employee succeeds and stores
the string verbatim, and a freshly inserted record whose status is neither
"present" nor "absent" raises total_days by one while leaving present_days
and absent_days unchanged in the statistics. -/
theorem C10_status_not_validated :
    (∀ (db : DB) (i e : String) (d : Nat) (s : String),
        (get_employee_by_id db e).isSome = true →
        ∃ fr : FormattedRecord, (mark_attendance db i e d s).2 = Except.ok fr ∧ fr.status = s)
    ∧ (∀ (db : DB) (i e : String) (d : Nat) (s : String),
        (get_employee_by_id db e).isSome = true →
        db.attendance.any (fun r => keyMatch r e d) = false →
        s ≠ PRESENT → s ≠ ABSENT →
        (⟨i, e, d, s⟩ : Attendance) ∈ (mark_attendance db i e d s).1.attendance
          ∧ ∃ s2 s1 : AttendanceStatsOut,
              get_attendance_stats (mark_attendance db i e d s).1 e = Except.ok s2
              ∧ get_attendance_stats db e = Except.ok s1
              ∧ s2.total_days = s1.total_days + 1
              ∧ s2.present_days = s1.present_days
              ∧ s2.absent_days = s1.absent_days) := by
  constructor
  · intro db i e d s h
    obtain ⟨emp, hemp⟩ := Option.isSome_iff_exists.mp h
    cases hf : db.attendance.find? (fun r => keyMatch r e d) with
    | some ex =>
      refine ⟨formatRecord
        { db with attendance := updateFirstStatus db.attendance e d s }
        { ex with status := s }, ?_, rfl⟩
      simp only [mark_attendance, hemp, hf]
    | none =>
      have hc : attendanceKeyConflict db ⟨i, e, d, s⟩ = false := by
        rw [show attendanceKeyConflict db ⟨i, e, d, s⟩
            = db.attendance.any (fun r => keyMatch r e d) from rfl]
        rw [List.any_eq_false]
        intro r hr
        simpa using List.find?_eq_none.mp hf r hr
      refine ⟨formatRecord
        { db with attendance := db.attendance ++ [⟨i, e, d, s⟩] } ⟨i, e, d, s⟩, ?_, rfl⟩
      simp only [mark_attendance, hemp, hf, markInsertPhase, commitInsertAttendance, hc,
        Bool.false_eq_true, if_false]
  · intro db i e d s h hno hp ha
    obtain ⟨emp, hemp⟩ := Option.isSome_iff_exists.mp h
    have hf : db.attendance.find? (fun r => keyMatch r e d) = none := by
      rw [List.find?_eq_none]
      intro x hx
      simpa using List.any_eq_false.mp hno x hx
    have hc : attendanceKeyConflict db ⟨i, e, d, s⟩ = false := hno
    have hmark : (mark_attendance db i e d s).1
        = { db with attendance := db.attendance ++ [⟨i, e, d, s⟩] } := by
      simp only [mark_attendance, hemp, hf, markInsertPhase, commitInsertAttendance, hc,
        Bool.false_eq_true, if_false]
    rw [hmark]
    have hemp2 : get_employee_by_id
        { db with attendance := db.attendance ++ [⟨i, e, d, s⟩] } e = some emp := hemp
    refine ⟨by simp, ?_⟩
    refine ⟨_, _, get_attendance_stats_ok _ e emp hemp2, get_attendance_stats_ok db e emp hemp,
      ?_, ?_, ?_⟩
    · show ((db.attendance ++ [(⟨i, e, d, s⟩ : Attendance)]).filter
          (fun r => r.employee_id == e)).length
        = (db.attendance.filter (fun r => r.employee_id == e)).length + 1
      simp [List.filter_append, List.filter_cons]
    · show ((db.attendance ++ [(⟨i, e, d, s⟩ : Attendance)]).filter
          (fun r => r.employee_id == e && r.status == PRESENT)).length
        = (db.attendance.filter (fun r => r.employee_id == e && r.status == PRESENT)).length
      have hsp : (s == PRESENT) = false := beq_eq_false_iff_ne.mpr hp
      simp [List.filter_append, List.filter_cons, hsp]
    · show ((db.attendance ++ [(⟨i, e, d, s⟩ : Attendance)]).filter
          (fun r => r.employee_id == e && r.status == ABSENT)).length
        = (db.attendance.filter (fun r => r.employee_id == e && r.status == ABSENT)).length
      have hsa : (s == ABSENT) = false := beq_eq_false_iff_ne.mpr ha
      simp [List.filter_append, List.filter_cons, hsa]

/-- Witness for C10 on the concrete store. -/
theorem C10_status_not_validated_witness :
    ((get_employee_by_id dbW "u2").isSome = true
      ∧ dbW.attendance.any (fun r => keyMatch r "u2" 11) = false
      ∧ ("late" : String) ≠ PRESENT ∧ ("late" : String) ≠ ABSENT)
      ∧ (⟨"a7", "u2", 11, "late"⟩ : Attendance)
          ∈ (mark_attendance dbW "a7" "u2" 11 "late").1.attendance :=
  ⟨⟨by decide, by decide, by decide, by decide⟩,
    (C10_status_not_validated.2 dbW "a7" "u2" 11 "late" (by decide) (by decide)
      (by decide) (by decide)).1⟩

/-- C1: any sequence of mark-attendance calls preserves the at-most-one
record per (employee, date) invariant, and marking the same key twice with
different statuses succeeds, creates no duplicate (the row count is
unchanged by the second mark), and leaves exactly one record for that key
whose status is the last one written. -/
theorem C1_at_most_one_record_per_key :
    (∀ (db : DB) (ops : List MarkOp), uniquePerKeyB db.attendance = true →
        uniquePerKeyB (applyMarks db ops).attendance = true)
    ∧ (∀ (db : DB) (id1 id2 e : String) (d : Nat) (s1 s2 : String),
        uniquePerKeyB db.attendance = true →
        (get_employee_by_id db e).isSome = true →
        (mark_attendance (mark_attendance db id1 e d s1).1 id2 e d s2).2.isOk = true
          ∧ (mark_attendance (mark_attendance db id1 e d s1).1 id2 e d s2).1.attendance.length
              = (mark_attendance db id1 e d s1).1.attendance.length
          ∧ ∃ r : Attendance,
              recordsFor (mark_attendance (mark_attendance db id1 e d s1).1 id2 e d s2).1 e d
                  = [r]
                ∧ r.status = s2) := by
  constructor
  · exact applyMarks_preserves_unique
  · intro db id1 id2 e d s1 s2 hu hsome
    have hu1 : uniquePerKeyB (mark_attendance db id1 e d s1).1.attendance = true :=
      mark_preserves_unique db id1 e d s1 hu
    have hkey : (mark_attendance db id1 e d s1).1.attendance.any
        (fun r => keyMatch r e d) = true :=
      mark_key_present db id1 e d s1 hsome
    have hsome1 : (get_employee_by_id (mark_attendance db id1 e d s1).1 e).isSome = true := by
      rw [get_employee_by_id_mark]
      exact hsome
    obtain ⟨emp1, hemp1⟩ := Option.isSome_iff_exists.mp hsome1
    have hfind : ((mark_attendance db id1 e d s1).1.attendance.find?
        (fun r => keyMatch r e d)).isSome = true := by
      rw [List.find?_isSome]
      exact List.any_eq_true.mp hkey
    obtain ⟨ex, hex⟩ := Option.isSome_iff_exists.mp hfind
    revert hu1 hkey hemp1 hex
    generalize (mark_attendance db id1 e d s1).1 = db1
    intro hu1 hkey hemp1 hex
    refine ⟨?_, ?_, ?_⟩
    · simp only [mark_attendance, hemp1, hex]
      rfl
    · simp only [mark_attendance, hemp1, hex]
      exact updateFirstStatus_length _ _ _ _
    · simp only [mark_attendance, hemp1, hex, recordsFor]
      exact filter_updateFirstStatus _ e d s2 hu1 hkey

/-- Witness for C1 on the concrete store. -/
theorem C1_at_most_one_record_per_key_witness :
    (uniquePerKeyB dbW.attendance = true
      ∧ uniquePerKeyB (applyMarks dbW [⟨"b1", "u2", 11, "present"⟩]).attendance = true)
      ∧ ((get_employee_by_id dbW "u1").isSome = true
        ∧ (mark_attendance (mark_attendance dbW "c1" "u1" 12 "present").1
            "c2" "u1" 12 "absent").2.isOk = true) := by
  refine ⟨⟨by decide, ?_⟩, by decide, ?_⟩
  · exact C1_at_most_one_record_per_key.1 dbW [⟨"b1", "u2", 11, "present"⟩] (by decide)
  · exact (C1_at_most_one_record_per_key.2 dbW "c1" "c2" "u1" 12 "present" "absent"
      (by decide) (by decide)).1
